import Mathlib

/-
  Verification of the persistence core of the Note-Taker repository
  (src/safe-db.js) via a shallow embedding in Lean 4.

  Modelling conventions:
  * JSON values are modelled by the inductive `Json` (numbers as `Int`;
    no claim depends on floating-point semantics).
  * File contents are modelled by `Content`: either bytes that parse as a
    JSON value (`jsonText v pretty`, where `pretty` records whether the
    bytes are the `JSON.stringify(v, null, 2)` serialization) or bytes that
    do not parse as JSON (`text raw`).  `JSON.parse` on such contents is
    `Content.parse`.
  * The filesystem state `Fs` holds the primary file `db/db.json`
    (`dbFile`), the files of the backups directory `db/backups` in readdir
    order (`backups`, each with name, content and mtime), and the current
    wall clock `now` in milliseconds.
  * Filesystem effects are additionally recorded as a trace of events
    (`Ev`), so that mechanism-level statements (temp-write-plus-rename
    versus direct copy, event ordering around lock acquisition) can be
    expressed.
  * Injected I/O failures (for the best-effort paths of the source) are
    driven by an oracle `Env`.
-/

namespace SafeDb

/-- JSON values produced by JSON.parse / consumed by JSON.stringify. -/
inductive Json where
  | null : Json
  | bool (b : Bool) : Json
  | num (n : Int) : Json
  | str (s : String) : Json
  | arr (elems : List Json) : Json
  | obj (fields : List (String × Json)) : Json

/-- Bytes of a file: either a serialization of a JSON value (with a flag
recording whether it is the pretty `JSON.stringify(v, null, 2)` form) or
bytes that do not parse as JSON. -/
inductive Content where
  | text (raw : String) : Content
  | jsonText (v : Json) (pretty : Bool) : Content

/-- JSON.parse on a file's bytes. -/
def Content.parse : Content → Option Json
  | .text _ => none
  | .jsonText v _ => some v

/-- Whether the file's bytes are the empty string (a falsy raw in JS). -/
def Content.isEmptyStr : Content → Bool
  | .text raw => raw = ""
  | .jsonText _ _ => false

/-- JSON.parse(raw || new-empty-array-literal): the source guards several parses with
a fallback to the two-character array literal when raw is the empty string. -/
def parseOrEmptyArr (c : Content) : Option Json :=
  if c.isEmptyStr then some (.arr []) else c.parse

/-- A file of the backups directory: name, bytes, modification time (ms). -/
structure DirEnt where
  name : String
  content : Content
  mtime : Nat

/-- Filesystem state: the primary file db/db.json (if present), the files
of db/backups in readdir order, and the wall clock in ms. -/
structure Fs where
  dbFile : Option Content
  backups : List DirEnt
  now : Nat

/-- A write target: the primary file dbPath, or a file of the backups
directory identified by its name. -/
inductive Loc where
  | primary : Loc
  | backup (name : String) : Loc
deriving DecidableEq, Repr

/-- Observable filesystem events, for mechanism-level claims. -/
inductive Ev where
  | evWriteTmp (target : Loc) (c : Content) : Ev
  | evRenameTmp (target : Loc) : Ev
  | evCopy (src dst : Loc) : Ev
  | evUnlink (target : Loc) : Ev
  | evLockAcquire : Ev
  | evLockRelease : Ev

/-- Errors surfaced by the embedded operations. -/
inductive Err where
  | ioFailure : Err
  | noBackup : Err
  | lockFailed : Err
  | other (msg : String) : Err
deriving DecidableEq, Repr

/-- Oracle of injected I/O failures, driving the best-effort catch paths
of the source. -/
structure Env where
  readFails : String → Bool
  writeFails : Loc → Bool
  unlinkFails : String → Bool
  copyFails : Bool
  lockFails : Bool
  releaseFails : Bool

/-- The environment in which no injected failure occurs. -/
def noFail : Env :=
  { readFails := fun _ => false
    writeFails := fun _ => false
    unlinkFails := fun _ => false
    copyFails := false
    lockFails := false
    releaseFails := false }

/-- Name of a backup snapshot created at wall-clock millisecond ms.  The
source builds the name from new Date().toISOString() with colons and dots
replaced by dashes; that string is an injective function of the millisecond
clock with no finer disambiguation, which this definition models by
embedding the millisecond count in the name. -/
def backupName (ms : Nat) : String :=
  "db-" ++ Nat.repr ms ++ ".json"

/-- Name of a quarantine file for a corrupt primary file, from the source's
Date.now()-based template. -/
def corruptName (ms : Nat) : String :=
  "corrupt-" ++ Nat.repr ms ++ ".json"

/-- Content of an empty-array literal written by the source when it
(re)initializes the primary file. -/
def emptyArrContent : Content :=
  .jsonText (.arr []) false

/-- Write content under a name in the backups directory: overwrite the
existing entry in place, or append a new entry (readdir order). -/
def upsert (n : String) (c : Content) (t : Nat) : List DirEnt → List DirEnt
  | [] => [⟨n, c, t⟩]
  | e :: es => if e.name = n then ⟨n, c, t⟩ :: es else e :: upsert n c t es

/-- Apply the effect of placing content at a location. -/
def Fs.setLoc (fs : Fs) : Loc → Content → Fs
  | .primary, c => { fs with dbFile := some c }
  | .backup n, c => { fs with backups := upsert n c fs.now fs.backups }

/-- Events emitted by atomicWrite: write the temporary sibling, then one
rename onto the target. -/
def atomicWriteTrace (l : Loc) (c : Content) : List Ev :=
  [.evWriteTmp l c, .evRenameTmp l]

/-- atomicWrite(file, data): write to file + tmp-suffix, then fs.rename(tmp, file).
If the temporary write fails the target is untouched and the error
propagates. -/
def atomicWrite (env : Env) (l : Loc) (c : Content) (fs : Fs) :
    Except Err Unit × Fs × List Ev :=
  if env.writeFails l then (.error .ioFailure, fs, [])
  else (.ok (), fs.setLoc l c, atomicWriteTrace l c)

/-- makeBackupIfExists(): if dbPath exists, fs.copyFile(dbPath, backupPath)
where backupPath is the timestamp-named file in the backups directory; the
copy failure is swallowed by a catch. -/
def makeBackupIfExists (env : Env) (fs : Fs) : Fs × List Ev :=
  match fs.dbFile with
  | none => (fs, [])
  | some c =>
    if env.copyFails then (fs, [])
    else (fs.setLoc (.backup (backupName fs.now)) c,
          [.evCopy .primary (.backup (backupName fs.now))])

/-- latestBackup(): readdir the backups directory, stat each file, sort by
mtime descending (stable), take the first.  Modelled as the fold keeping
the earliest entry among those of maximal mtime, which is the head of the
stable descending sort.  Returns none for an empty directory. -/
def latestBackupEnt (fs : Fs) : Option DirEnt :=
  match fs.backups with
  | [] => none
  | e :: es => some (es.foldl (fun best x => if best.mtime < x.mtime then x else best) e)

/-- restoreFromBackup(): throw when latestBackup() is null, else
fs.copyFile(backup, dbPath) - a direct overwrite of the primary file. -/
def restoreFromBackup (fs : Fs) : Except Err Unit × Fs × List Ev :=
  match latestBackupEnt fs with
  | none => (.error .noBackup, fs, [])
  | some e => (.ok (), fs.setLoc .primary e.content, [.evCopy (.backup e.name) .primary])

/-- Whether a parsed JSON value is an empty array, or a non-null object
with no keys: the values cleanupEmptyBackups deletes. -/
def isEmptyArrOrObj : Json → Bool
  | .arr xs => xs.isEmpty
  | .obj fields => fields.isEmpty
  | _ => false

/-- The per-file handler of cleanupEmptyBackups: delete the file when it
is zero-length, whitespace-only, or parses as an empty JSON array/object;
per-file stat/read/unlink errors are swallowed, leaving the file in place.
Returns the file's surviving entry (if any) and the events emitted. -/
def pruneFile (env : Env) (e : DirEnt) : Option DirEnt × List Ev :=
  match e.content with
  | .text raw =>
    if raw = "" then
      -- stat.size === 0
      if env.unlinkFails e.name then (some e, []) else (none, [.evUnlink (.backup e.name)])
    else if env.readFails e.name then (some e, [])
    else if raw.data.all Char.isWhitespace then
      -- raw.trim() === '': the bytes are whitespace only
      if env.unlinkFails e.name then (some e, []) else (none, [.evUnlink (.backup e.name)])
    else (some e, [])  -- JSON.parse(trimmed) throws: not JSON - leave it alone
  | .jsonText v _ =>
    if env.readFails e.name then (some e, [])
    else if isEmptyArrOrObj v then
      if env.unlinkFails e.name then (some e, []) else (none, [.evUnlink (.backup e.name)])
    else (some e, [])

/-- cleanupEmptyBackups(): apply pruneFile to every file of the backups
directory.  The source iterates with Promise.all over the readdir listing;
each handler touches only its own file, so the net effect is the pointwise
one. -/
def cleanupEmptyBackups (env : Env) (fs : Fs) : Fs × List Ev :=
  ({ fs with backups := fs.backups.filterMap (fun e => (pruneFile env e).1) },
   (fs.backups.map (fun e => (pruneFile env e).2)).flatten)

/-- The removal test of removeBackupsContainingNote's filter: n && n.id === id.
True exactly for a JSON object whose id field is the given string. -/
def matchesId (id : String) : Json → Bool
  | .obj fields =>
    match fields.lookup "id" with
    | some (.str s) => s = id
    | _ => false
  | _ => false

/-- The per-file handler of removeBackupsContainingNote: skip empty reads,
unparseable files and non-arrays; filter out records matching the id; if
nothing changed leave the file alone; if the filtered array is empty unlink
the file; otherwise rewrite it atomically with JSON.stringify(filtered, null, 2).
Per-file errors are swallowed (the file then survives unchanged). -/
def purgeFile (env : Env) (id : String) (now : Nat) (e : DirEnt) :
    Option DirEnt × List Ev :=
  if env.readFails e.name then (some e, [])          -- readFile catch gives null
  else if e.content.isEmptyStr then (some e, [])     -- !raw
  else
    match e.content.parse with
    | none => (some e, [])                           -- skip invalid JSON
    | some v =>
      match v with
      | .arr xs =>
        let filtered := xs.filter (fun n => !(matchesId id n))
        if filtered.length = xs.length then (some e, [])  -- no change
        else if filtered.length = 0 then
          if env.unlinkFails e.name then (some e, [])
          else (none, [.evUnlink (.backup e.name)])
        else
          if env.writeFails (.backup e.name) then (some e, [])
          else (some ⟨e.name, .jsonText (.arr filtered) true, now⟩,
                atomicWriteTrace (.backup e.name) (.jsonText (.arr filtered) true))
      | _ => (some e, [])                            -- not an array

/-- removeBackupsContainingNote(id): apply purgeFile to every file of the
backups directory (Promise.all over the readdir listing; per-file effects
are independent). -/
def removeBackupsContainingNote (env : Env) (id : String) (fs : Fs) :
    Fs × List Ev :=
  ({ fs with backups := fs.backups.filterMap (fun e => (purgeFile env id fs.now e).1) },
   (fs.backups.map (fun e => (purgeFile env id fs.now e).2)).flatten)

/-- ensureDb(): create dirs, prune empty backups, initialize an absent
primary file to the empty-array literal, accept a primary file whose
content parses as JSON (with the empty-string fallback), and otherwise
restore from the latest backup or - when none exists - quarantine the
corrupt bytes (best-effort copy) and reset the primary file atomically. -/
def ensureDb (env : Env) (fs : Fs) : Except Err Unit × Fs × List Ev :=
  let cu := cleanupEmptyBackups env fs
  let fs1 := cu.1
  let t1 := cu.2
  match fs1.dbFile with
  | none =>
    let aw := atomicWrite env .primary emptyArrContent fs1
    (aw.1, aw.2.1, t1 ++ aw.2.2)
  | some c =>
    match parseOrEmptyArr c with
    | some _ => (.ok (), fs1, t1)  -- healthy
    | none =>
      match latestBackupEnt fs1 with
      | some _ =>
        let r := restoreFromBackup fs1
        (r.1, r.2.1, t1 ++ r.2.2)
      | none =>
        -- copy corrupt file aside (catch swallows failure), then reset
        let quar := corruptName fs1.now
        let fs2 := if env.copyFails then fs1 else fs1.setLoc (.backup quar) c
        let t2 : List Ev := if env.copyFails then [] else [.evCopy .primary (.backup quar)]
        let aw := atomicWrite env .primary emptyArrContent fs2
        (aw.1, aw.2.1, t1 ++ t2 ++ aw.2.2)

/-- The pre-lock step of withLock: ensure the primary file exists so the
lock can be acquired reliably. -/
def ensureFileExists (env : Env) (fs : Fs) : Except Err Unit × Fs × List Ev :=
  match fs.dbFile with
  | none => atomicWrite env .primary emptyArrContent fs
  | some _ => (.ok (), fs, [])

/-- release(): the lock release call of withLock's finally block; it may
itself fail, which the source catches and ignores. -/
def releaseLock (env : Env) : Except Err Unit × List Ev :=
  (if env.releaseFails then .error .ioFailure else .ok (), [.evLockRelease])

/-- withLock(fn): ensure dirs and the primary file, acquire the lock (a
bounded-retry acquisition; on final failure throw the lock error), run fn,
and in a finally block call release, swallowing its error. -/
def withLock {α : Type} (env : Env) (fn : Fs → Except Err α × Fs × List Ev) (fs : Fs) :
    Except Err α × Fs × List Ev :=
  let pre := ensureFileExists env fs
  match pre with
  | (.error e, fs1, t1) => (.error e, fs1, t1)
  | (.ok _, fs1, t1) =>
    if env.lockFails then (.error .lockFailed, fs1, t1)
    else
      let r := fn fs1
      let rel := releaseLock env
      -- try { return await fn() } finally { try { await release() } catch {} }
      (r.1, r.2.1, t1 ++ [.evLockAcquire] ++ r.2.2 ++ rel.2)

/-- The body of loadNotes: read the primary file (a read failure is caught
and replaced by the empty-array literal), then JSON.parse(raw || two-character
array literal); a parse failure propagates out of the lock. -/
def loadBody (fs : Fs) : Except Err Json × Fs × List Ev :=
  let raw := match fs.dbFile with
    | none => emptyArrContent  -- catch of the read yields the array literal
    | some c => c
  match parseOrEmptyArr raw with
  | some v => (.ok v, fs, [])
  | none => (.error (.other "SyntaxError"), fs, [])

/-- loadNotes(): withLock around loadBody. -/
def loadNotes (env : Env) (fs : Fs) : Except Err Json × Fs × List Ev :=
  withLock env loadBody fs

/-- The body of saveNotes: makeBackupIfExists, then atomically write
JSON.stringify(notes, null, 2) to the primary file. -/
def saveBody (env : Env) (v : Json) (fs : Fs) : Except Err Unit × Fs × List Ev :=
  let mb := makeBackupIfExists env fs
  let aw := atomicWrite env .primary (.jsonText v true) mb.1
  (aw.1, aw.2.1, mb.2 ++ aw.2.2)

/-- saveNotes(notes): withLock around saveBody. -/
def saveNotes (env : Env) (v : Json) (fs : Fs) : Except Err Unit × Fs × List Ev :=
  withLock env (saveBody env v) fs

/-- Bytes that strictly parse as JSON also parse under the empty-string
fallback, to the same value. -/
theorem parseOrEmptyArr_of_parse {c : Content} {v : Json} (h : c.parse = some v) :
    parseOrEmptyArr c = some v := by
  cases c with
  | text raw => simp [Content.parse] at h
  | jsonText w p => simpa [parseOrEmptyArr, Content.isEmptyStr, Content.parse] using h

/-- cleanupEmptyBackups only touches the backups directory: the primary
file is preserved. -/
theorem cleanup_dbFile (env : Env) (fs : Fs) :
    (cleanupEmptyBackups env fs).1.dbFile = fs.dbFile := rfl

/-- cleanupEmptyBackups does not advance the clock. -/
theorem cleanup_now (env : Env) (fs : Fs) :
    (cleanupEmptyBackups env fs).1.now = fs.now := rfl

/-- Claim C8: calling ensureDb twice in a row on a healthy store (primary
file present and its content parsing as JSON) leaves the primary file's
content unchanged: after the first call and after the second call it
equals the content before the first call. -/
theorem claim8_ensureDb_idempotent_healthy (env : Env) (fs : Fs) (c : Content) (v : Json)
    (hdb : fs.dbFile = some c) (hp : c.parse = some v) :
    (ensureDb env (ensureDb env fs).2.1).2.1.dbFile = fs.dbFile ∧
    (ensureDb env fs).2.1.dbFile = fs.dbFile := by
  have hpe := parseOrEmptyArr_of_parse hp
  obtain ⟨db, bks, n⟩ := fs
  simp only at hdb
  subst hdb
  simp [ensureDb, cleanupEmptyBackups, hpe]

/-- Witness for claim C8 at a concrete healthy store. -/
theorem claim8_witness :
    (Fs.dbFile ⟨some (.jsonText (.arr [.num 7]) false), [], 5⟩
       = some (.jsonText (.arr [.num 7]) false)) ∧
    (Content.parse (.jsonText (.arr [.num 7]) false) = some (.arr [.num 7])) ∧
    ((ensureDb noFail (ensureDb noFail ⟨some (.jsonText (.arr [.num 7]) false), [], 5⟩).2.1).2.1.dbFile
       = Fs.dbFile ⟨some (.jsonText (.arr [.num 7]) false), [], 5⟩ ∧
     (ensureDb noFail ⟨some (.jsonText (.arr [.num 7]) false), [], 5⟩).2.1.dbFile
       = Fs.dbFile ⟨some (.jsonText (.arr [.num 7]) false), [], 5⟩) :=
  ⟨rfl, rfl,
   claim8_ensureDb_idempotent_healthy noFail _ _ (.arr [.num 7]) rfl rfl⟩

/-- Claim C5: if the primary file exists but fails to parse and the
backups directory is empty, ensureDb resets the primary file to the
empty-array literal and leaves a quarantine file, named corrupt-timestamp,
whose content is the original corrupt bytes, in the backups directory. -/
theorem claim5_corrupt_no_backup (env : Env) (fs : Fs) (c : Content)
    (hdb : fs.dbFile = some c) (hbad : parseOrEmptyArr c = none)
    (hnb : fs.backups = [])
    (hc : env.copyFails = false) (hw : env.writeFails .primary = false) :
    (ensureDb env fs).1 = .ok () ∧
    (ensureDb env fs).2.1.dbFile = some emptyArrContent ∧
    (ensureDb env fs).2.1.backups = [⟨corruptName fs.now, c, fs.now⟩] := by
  obtain ⟨db, bks, n⟩ := fs
  simp only at hdb hnb
  subst hdb; subst hnb
  simp [ensureDb, cleanupEmptyBackups, hbad, latestBackupEnt, hc, atomicWrite, hw,
        Fs.setLoc, upsert]

/-- Witness for claim C5 at a concrete corrupt store with no backups. -/
theorem claim5_witness :
    (Fs.dbFile ⟨some (.text "not json"), [], 42⟩ = some (.text "not json")) ∧
    (parseOrEmptyArr (.text "not json") = none) ∧
    (Fs.backups ⟨some (.text "not json"), [], 42⟩ = []) ∧
    (noFail.copyFails = false) ∧
    (noFail.writeFails .primary = false) ∧
    ((ensureDb noFail ⟨some (.text "not json"), [], 42⟩).1 = .ok () ∧
     (ensureDb noFail ⟨some (.text "not json"), [], 42⟩).2.1.dbFile = some emptyArrContent ∧
     (ensureDb noFail ⟨some (.text "not json"), [], 42⟩).2.1.backups
       = [⟨corruptName 42, .text "not json", 42⟩]) :=
  ⟨rfl, rfl, rfl, rfl, rfl,
   claim5_corrupt_no_backup noFail _ _ rfl rfl rfl rfl rfl⟩

/-- Claim C6 counterexample: with a corrupt primary file, an empty-array
backup that is the most recently modified snapshot, and an older non-empty
backup, ensureDb first prunes the empty snapshot and then restores the
OLDER backup, so the primary file does not equal the content of the most
recently modified snapshot. -/
theorem claim6_counterexample :
    ((latestBackupEnt ⟨some (.text "not json"),
        [⟨"A.json", .jsonText (.arr []) false, 10⟩,
         ⟨"B.json", .jsonText (.arr [.obj [("id", .str "1")]]) false, 5⟩], 99⟩).map
        DirEnt.content = some (.jsonText (.arr []) false)) ∧
    ((ensureDb noFail ⟨some (.text "not json"),
        [⟨"A.json", .jsonText (.arr []) false, 10⟩,
         ⟨"B.json", .jsonText (.arr [.obj [("id", .str "1")]]) false, 5⟩], 99⟩).2.1.dbFile
       = some (.jsonText (.arr [.obj [("id", .str "1")]]) false)) ∧
    Content.jsonText (.arr [.obj [("id", .str "1")]]) false ≠
      Content.jsonText (.arr []) false := by
  refine ⟨rfl, rfl, ?_⟩
  simp

/-- Claim C6, amended: if the primary file is corrupt, the primary file is
restored to the content of the most recently modified backup snapshot
REMAINING AFTER the startup pruning of empty snapshots. -/
theorem claim6_restores_latest_surviving (env : Env) (fs : Fs) (c : Content) (e : DirEnt)
    (hdb : fs.dbFile = some c) (hbad : parseOrEmptyArr c = none)
    (hlb : latestBackupEnt (cleanupEmptyBackups env fs).1 = some e) :
    (ensureDb env fs).1 = .ok () ∧
    (ensureDb env fs).2.1.dbFile = some e.content := by
  obtain ⟨db, bks, n⟩ := fs
  simp only at hdb
  subst hdb
  simp [ensureDb, cleanup_dbFile, hbad, restoreFromBackup, hlb, Fs.setLoc]

/-- Witness for the amended claim C6 at a concrete corrupt store with one
valid backup. -/
theorem claim6_witness :
    (Fs.dbFile ⟨some (.text "not json"),
        [⟨"b.json", .jsonText (.arr [.obj [("id", .str "1")]]) false, 3⟩], 9⟩
       = some (.text "not json")) ∧
    (parseOrEmptyArr (.text "not json") = none) ∧
    (latestBackupEnt (cleanupEmptyBackups noFail ⟨some (.text "not json"),
        [⟨"b.json", .jsonText (.arr [.obj [("id", .str "1")]]) false, 3⟩], 9⟩).1
       = some ⟨"b.json", .jsonText (.arr [.obj [("id", .str "1")]]) false, 3⟩) ∧
    ((ensureDb noFail ⟨some (.text "not json"),
        [⟨"b.json", .jsonText (.arr [.obj [("id", .str "1")]]) false, 3⟩], 9⟩).1 = .ok () ∧
     (ensureDb noFail ⟨some (.text "not json"),
        [⟨"b.json", .jsonText (.arr [.obj [("id", .str "1")]]) false, 3⟩], 9⟩).2.1.dbFile
       = some (.jsonText (.arr [.obj [("id", .str "1")]]) false)) :=
  ⟨rfl, rfl, rfl,
   claim6_restores_latest_surviving noFail _ _
     ⟨"b.json", .jsonText (.arr [.obj [("id", .str "1")]]) false, 3⟩ rfl rfl rfl⟩

/-- Claim C2 counterexample: restoreFromBackup writes the primary file by
a single direct fs.copyFile, not by a temporary-sibling write followed by
a rename: its trace is one copy event onto the primary path and contains
no temporary write and no rename. -/
theorem claim2_counterexample :
    ((restoreFromBackup ⟨some (.text "x"),
        [⟨"b.json", .jsonText (.arr [.num 1]) false, 3⟩], 0⟩).2.2
       = [.evCopy (.backup "b.json") .primary]) ∧
    (Ev.evRenameTmp .primary ∉ (restoreFromBackup ⟨some (.text "x"),
        [⟨"b.json", .jsonText (.arr [.num 1]) false, 3⟩], 0⟩).2.2) ∧
    (∀ c : Content, Ev.evWriteTmp .primary c ∉ (restoreFromBackup ⟨some (.text "x"),
        [⟨"b.json", .jsonText (.arr [.num 1]) false, 3⟩], 0⟩).2.2) := by
  refine ⟨rfl, ?_, ?_⟩ <;> simp [restoreFromBackup, latestBackupEnt]

/-- Claim C2, amended: restoreFromBackup copies the latest backup's
content onto the primary file path by a direct copyFile overwrite; and in
every state with no backup snapshot it fails with the no-backup error and
leaves the whole filesystem state, in particular the primary file,
untouched. -/
theorem claim2_restore_mechanism (fs1 fs2 : Fs) (e : DirEnt)
    (h1 : fs1.backups = [])
    (h2 : latestBackupEnt fs2 = some e) :
    restoreFromBackup fs1 = (.error .noBackup, fs1, []) ∧
    restoreFromBackup fs2 =
      (.ok (), fs2.setLoc .primary e.content, [.evCopy (.backup e.name) .primary]) := by
  constructor
  · obtain ⟨db, bks, n⟩ := fs1
    simp only at h1
    subst h1
    rfl
  · simp [restoreFromBackup, h2]

/-- Witness for the amended claim C2: a state with no backups and a state
with one backup. -/
theorem claim2_witness :
    (Fs.backups ⟨some (.text "x"), [], 0⟩ = []) ∧
    (latestBackupEnt ⟨none, [⟨"b.json", .jsonText (.arr [.num 1]) false, 3⟩], 0⟩
       = some ⟨"b.json", .jsonText (.arr [.num 1]) false, 3⟩) ∧
    (restoreFromBackup ⟨some (.text "x"), [], 0⟩
       = (.error .noBackup, ⟨some (.text "x"), [], 0⟩, []) ∧
     restoreFromBackup ⟨none, [⟨"b.json", .jsonText (.arr [.num 1]) false, 3⟩], 0⟩
       = (.ok (), Fs.setLoc ⟨none, [⟨"b.json", .jsonText (.arr [.num 1]) false, 3⟩], 0⟩
            .primary (.jsonText (.arr [.num 1]) false),
          [.evCopy (.backup "b.json") .primary])) :=
  ⟨rfl, rfl,
   claim2_restore_mechanism ⟨some (.text "x"), [], 0⟩
     ⟨none, [⟨"b.json", .jsonText (.arr [.num 1]) false, 3⟩], 0⟩
     ⟨"b.json", .jsonText (.arr [.num 1]) false, 3⟩ rfl rfl⟩

/-- The empty-array literal parses, under the empty-string fallback, to
the empty JSON array. -/
theorem parseOrEmptyArr_empty : parseOrEmptyArr emptyArrContent = some (.arr []) := rfl

/-- Overwriting the same name with the same content twice is the same as
doing it once. -/
theorem upsert_idem (nm : String) (c : Content) (t : Nat) (l : List DirEnt) :
    upsert nm c t (upsert nm c t l) = upsert nm c t l := by
  induction l with
  | nil => simp [upsert]
  | cons e es ih =>
    by_cases h : e.name = nm
    · simp [upsert, h]
    · simp [upsert, h, ih]

/-- makeBackupIfExists only touches the backups directory: the primary
file is preserved. -/
theorem mb_dbFile (env : Env) (fs : Fs) :
    (makeBackupIfExists env fs).1.dbFile = fs.dbFile := by
  cases hdb : fs.dbFile with
  | none => simp [makeBackupIfExists, hdb]
  | some c =>
    by_cases hc : env.copyFails <;> simp [makeBackupIfExists, hdb, hc, Fs.setLoc]

/-- The pre-lock existence step succeeds whenever writing the primary file
is not failing. -/
theorem efe_ok (env : Env) (fs : Fs) (hw : env.writeFails .primary = false) :
    (ensureFileExists env fs).1 = .ok () := by
  cases hdb : fs.dbFile <;> simp [ensureFileExists, hdb, atomicWrite, hw]

/-- The body of saveNotes ends with the primary file holding the
pretty-printed serialization of its argument. -/
theorem saveBody_ok (env : Env) (v : Json) (fs : Fs)
    (hw : env.writeFails .primary = false) :
    (saveBody env v fs).1 = .ok () ∧
    (saveBody env v fs).2.1.dbFile = some (.jsonText v true) := by
  simp [saveBody, atomicWrite, hw, Fs.setLoc]

/-- Characterization of withLock when the primary file exists (or was
created) and the lock is acquired: the operation's result and final state
are returned unchanged, and the trace brackets the operation's events
between the acquisition and one release attempt - whatever the operation's
outcome and whether or not the release fails. -/
theorem withLock_spec (α : Type) (env : Env) (fn : Fs → Except Err α × Fs × List Ev)
    (fs : Fs) (hl : env.lockFails = false) (hok : (ensureFileExists env fs).1 = .ok ()) :
    withLock env fn fs =
      ((fn (ensureFileExists env fs).2.1).1,
       (fn (ensureFileExists env fs).2.1).2.1,
       (ensureFileExists env fs).2.2 ++ [.evLockAcquire]
         ++ (fn (ensureFileExists env fs).2.1).2.2 ++ [.evLockRelease]) := by
  rcases hE : ensureFileExists env fs with ⟨r, fs1, t1⟩
  rw [hE] at hok
  simp only at hok
  subst hok
  simp [withLock, hE, hl, releaseLock]

/-- Claim C3 counterexample: two makeBackupIfExists calls in the same
wall-clock millisecond produce the same snapshot name - both traces copy
onto the same backup file - and after both calls the backups directory
holds a single snapshot: the second call overwrote the first's. -/
theorem claim3_counterexample :
    ((makeBackupIfExists noFail ⟨some (.jsonText (.arr [.num 1]) false), [], 1000⟩).2
       = [.evCopy .primary (.backup "db-1000.json")]) ∧
    ((makeBackupIfExists noFail
        (makeBackupIfExists noFail ⟨some (.jsonText (.arr [.num 1]) false), [], 1000⟩).1).2
       = [.evCopy .primary (.backup "db-1000.json")]) ∧
    ((makeBackupIfExists noFail
        (makeBackupIfExists noFail ⟨some (.jsonText (.arr [.num 1]) false), [], 1000⟩).1).1.backups
       = [⟨"db-1000.json", .jsonText (.arr [.num 1]) false, 1000⟩]) := by
  refine ⟨rfl, rfl, ?_⟩
  show upsert (backupName 1000) (.jsonText (.arr [.num 1]) false) 1000
        (upsert (backupName 1000) (.jsonText (.arr [.num 1]) false) 1000 [])
      = [⟨"db-1000.json", .jsonText (.arr [.num 1]) false, 1000⟩]
  rw [upsert_idem]
  rfl

/-- Claim C3, amended: the snapshot name is a function of the wall-clock
millisecond only; two snapshotIfPresent calls in the same millisecond copy
onto the same snapshot name, and the second call leaves the backups
directory exactly as the first did (an overwrite, not a new snapshot). -/
theorem claim3_same_ms_collision (env : Env) (fs : Fs) (c : Content)
    (hdb : fs.dbFile = some c) (hc : env.copyFails = false) :
    (makeBackupIfExists env fs).2 = [.evCopy .primary (.backup (backupName fs.now))] ∧
    (makeBackupIfExists env (makeBackupIfExists env fs).1).2
      = [.evCopy .primary (.backup (backupName fs.now))] ∧
    (makeBackupIfExists env (makeBackupIfExists env fs).1).1.backups
      = (makeBackupIfExists env fs).1.backups := by
  obtain ⟨db, bks, n⟩ := fs
  simp only at hdb
  subst hdb
  simp [makeBackupIfExists, hc, Fs.setLoc, upsert_idem]

/-- Witness for the amended claim C3. -/
theorem claim3_witness :
    (Fs.dbFile ⟨some (.jsonText (.arr [.num 1]) false), [], 1000⟩
       = some (.jsonText (.arr [.num 1]) false)) ∧
    (noFail.copyFails = false) ∧
    ((makeBackupIfExists noFail ⟨some (.jsonText (.arr [.num 1]) false), [], 1000⟩).2
       = [.evCopy .primary (.backup (backupName 1000))] ∧
     (makeBackupIfExists noFail
        (makeBackupIfExists noFail ⟨some (.jsonText (.arr [.num 1]) false), [], 1000⟩).1).2
       = [.evCopy .primary (.backup (backupName 1000))] ∧
     (makeBackupIfExists noFail
        (makeBackupIfExists noFail ⟨some (.jsonText (.arr [.num 1]) false), [], 1000⟩).1).1.backups
       = (makeBackupIfExists noFail ⟨some (.jsonText (.arr [.num 1]) false), [], 1000⟩).1.backups) :=
  ⟨rfl, rfl,
   claim3_same_ms_collision noFail ⟨some (.jsonText (.arr [.num 1]) false), [], 1000⟩
     (.jsonText (.arr [.num 1]) false) rfl rfl⟩

/-- Claim C7: for every operation run under withLock (lock acquired), the
operation's outcome - value or error - is returned unchanged, the final
state is the operation's, and the trace shows one release attempt after
the operation's events on every exit path, regardless of whether the
release itself fails. -/
theorem claim7_withLock_release (α : Type) (env : Env)
    (fn : Fs → Except Err α × Fs × List Ev) (fs : Fs)
    (hl : env.lockFails = false) (hok : (ensureFileExists env fs).1 = .ok ()) :
    withLock env fn fs =
      ((fn (ensureFileExists env fs).2.1).1,
       (fn (ensureFileExists env fs).2.1).2.1,
       (ensureFileExists env fs).2.2 ++ [.evLockAcquire]
         ++ (fn (ensureFileExists env fs).2.1).2.2 ++ [.evLockRelease]) :=
  withLock_spec α env fn fs hl hok

/-- Witness for claim C7: a throwing operation under a failing release
still propagates its own error, and the trace records the release
attempt. -/
theorem claim7_witness :
    ((⟨fun _ => false, fun _ => false, fun _ => false, false, false, true⟩ : Env).lockFails
       = false) ∧
    ((ensureFileExists ⟨fun _ => false, fun _ => false, fun _ => false, false, false, true⟩
        ⟨some emptyArrContent, [], 0⟩).1 = .ok ()) ∧
    (withLock (⟨fun _ => false, fun _ => false, fun _ => false, false, false, true⟩ : Env)
        (fun s => ((.error (.other "boom") : Except Err Nat), s, [])) ⟨some emptyArrContent, [], 0⟩
      = (.error (.other "boom"), ⟨some emptyArrContent, [], 0⟩,
         [.evLockAcquire, .evLockRelease])) :=
  ⟨rfl, rfl,
   claim7_withLock_release Nat
     ⟨fun _ => false, fun _ => false, fun _ => false, false, false, true⟩
     (fun s => ((.error (.other "boom") : Except Err Nat), s, []))
     ⟨some emptyArrContent, [], 0⟩ rfl rfl⟩

/-- Claim C10: when the primary file is absent, loadNotes does not fail:
it creates the primary file with the empty-array literal before the lock
acquisition (the two write events precede the acquire event) and returns
the empty collection. -/
theorem claim10_loadNotes_absent (env : Env) (fs : Fs)
    (h : fs.dbFile = none) (hw : env.writeFails .primary = false)
    (hl : env.lockFails = false) :
    loadNotes env fs =
      (.ok (.arr []), fs.setLoc .primary emptyArrContent,
       [.evWriteTmp .primary emptyArrContent, .evRenameTmp .primary,
        .evLockAcquire, .evLockRelease]) := by
  obtain ⟨db, bks, n⟩ := fs
  simp only at h
  subst h
  simp [loadNotes, withLock, ensureFileExists, atomicWrite, hw, hl, loadBody,
        Fs.setLoc, parseOrEmptyArr, emptyArrContent, Content.isEmptyStr, Content.parse,
        releaseLock, atomicWriteTrace]

/-- Witness for claim C10 at a concrete store with no primary file. -/
theorem claim10_witness :
    (Fs.dbFile ⟨none, [], 0⟩ = none) ∧
    (noFail.writeFails .primary = false) ∧
    (noFail.lockFails = false) ∧
    (loadNotes noFail ⟨none, [], 0⟩
      = (.ok (.arr []), Fs.setLoc ⟨none, [], 0⟩ .primary emptyArrContent,
         [.evWriteTmp .primary emptyArrContent, .evRenameTmp .primary,
          .evLockAcquire, .evLockRelease])) :=
  ⟨rfl, rfl, rfl, claim10_loadNotes_absent noFail ⟨none, [], 0⟩ rfl rfl rfl⟩

/-- Claim C1 counterexample: after ensureDb the primary file need not be
a JSON array, and need not even be valid JSON.  Scenario 1: a primary file
holding a non-empty JSON object is accepted untouched.  Scenario 2: a
corrupt primary file restored from a backups-directory file holding
unparseable bytes ends up holding those unparseable bytes.  Scenario 3: a
zero-length primary file is accepted untouched and contains no JSON
value. -/
theorem claim1_counterexample :
    ((ensureDb noFail ⟨some (.jsonText (.obj [("a", .num 1)]) false), [], 0⟩).2.1.dbFile
       = some (.jsonText (.obj [("a", .num 1)]) false)) ∧
    (∀ xs, Content.parse (.jsonText (.obj [("a", .num 1)]) false) ≠ some (.arr xs)) ∧
    ((ensureDb noFail ⟨some (.text "not json"),
        [⟨"corrupt-1.json", .text "also not json", 7⟩], 0⟩).2.1.dbFile
       = some (.text "also not json")) ∧
    (Content.parse (.text "also not json") = none) ∧
    ((ensureDb noFail ⟨some (.text ""), [], 0⟩).2.1.dbFile = some (.text "")) ∧
    (Content.parse (.text "") = none) := by
  refine ⟨rfl, ?_, rfl, rfl, rfl, rfl⟩
  simp [Content.parse]

/-- Claim C1, amended: after every saveNotes of a collection the primary
file holds the collection serialized as a JSON array; and after ensureDb,
provided ensureDb did not restore from a backup, the primary file's
content parses as JSON under the source's empty-string fallback (ensureDb
validates parseability only, not array-ness, and a restore copies backup
bytes without validation). -/
theorem claim1_amended (env : Env) (l : List Json) (fsS fsE : Fs)
    (hl : env.lockFails = false) (hw : env.writeFails .primary = false)
    (hnr : ∀ c, fsE.dbFile = some c → parseOrEmptyArr c = none →
           latestBackupEnt (cleanupEmptyBackups env fsE).1 = none) :
    ((saveNotes env (.arr l) fsS).1 = .ok () ∧
     (saveNotes env (.arr l) fsS).2.1.dbFile = some (.jsonText (.arr l) true) ∧
     Content.parse (.jsonText (.arr l) true) = some (.arr l)) ∧
    ((ensureDb env fsE).1 = .ok () ∧
     ∃ c', (ensureDb env fsE).2.1.dbFile = some c' ∧ (parseOrEmptyArr c').isSome) := by
  constructor
  · have hefe := efe_ok env fsS hw
    have hsb := saveBody_ok env (.arr l) (ensureFileExists env fsS).2.1 hw
    rw [saveNotes, withLock_spec Unit env (saveBody env (.arr l)) fsS hl hefe]
    exact ⟨hsb.1, hsb.2, rfl⟩
  · obtain ⟨db, bks, n⟩ := fsE
    cases hdb : db with
    | none =>
      subst hdb
      refine ⟨?_, emptyArrContent, ?_, ?_⟩ <;>
        simp [ensureDb, cleanup_dbFile, atomicWrite, hw, Fs.setLoc, parseOrEmptyArr_empty]
    | some c =>
      subst hdb
      cases hpc : parseOrEmptyArr c with
      | some v =>
        refine ⟨?_, c, ?_, ?_⟩ <;> simp [ensureDb, cleanup_dbFile, hpc]
      | none =>
        have hnb := hnr c rfl hpc
        refine ⟨?_, emptyArrContent, ?_, ?_⟩ <;>
          simp [ensureDb, cleanup_dbFile, hpc, hnb, atomicWrite, hw, Fs.setLoc,
                parseOrEmptyArr_empty]

/-- Witness for the amended claim C1. -/
theorem claim1_witness :
    (noFail.lockFails = false) ∧
    (noFail.writeFails .primary = false) ∧
    (∀ c, Fs.dbFile ⟨some (.text "not json"), [], 0⟩ = some c →
       parseOrEmptyArr c = none →
       latestBackupEnt (cleanupEmptyBackups noFail ⟨some (.text "not json"), [], 0⟩).1 = none) ∧
    (((saveNotes noFail (.arr [.num 3]) ⟨some (.jsonText (.arr []) false), [], 0⟩).1 = .ok () ∧
      (saveNotes noFail (.arr [.num 3]) ⟨some (.jsonText (.arr []) false), [], 0⟩).2.1.dbFile
        = some (.jsonText (.arr [.num 3]) true) ∧
      Content.parse (.jsonText (.arr [.num 3]) true) = some (.arr [.num 3])) ∧
     ((ensureDb noFail ⟨some (.text "not json"), [], 0⟩).1 = .ok () ∧
      ∃ c', (ensureDb noFail ⟨some (.text "not json"), [], 0⟩).2.1.dbFile = some c' ∧
        (parseOrEmptyArr c').isSome)) :=
  ⟨rfl, rfl, fun c hc _ => by cases hc; rfl,
   claim1_amended noFail [.num 3] ⟨some (.jsonText (.arr []) false), [], 0⟩
     ⟨some (.text "not json"), [], 0⟩ rfl rfl (fun c hc _ => by cases hc; rfl)⟩

/-- The per-file purge handler keeps a snapshot of unparseable bytes
untouched, whatever the failure oracle. -/
theorem purgeFile_text_eq (env : Env) (id : String) (now : Nat)
    (nm raw : String) (mt : Nat) :
    purgeFile env id now ⟨nm, .text raw, mt⟩ = (some ⟨nm, .text raw, mt⟩, []) := by
  by_cases hr : env.readFails nm = true
  · simp [purgeFile, hr]
  · by_cases hraw : raw = ""
    · simp [purgeFile, hr, Content.isEmptyStr, hraw]
    · simp [purgeFile, hr, Content.isEmptyStr, hraw, Content.parse]

/-- The per-file purge handler keeps a snapshot parsing to a non-array
untouched, whatever the failure oracle. -/
theorem purgeFile_nonarr_eq (env : Env) (id : String) (now : Nat)
    (nm : String) (v : Json) (p : Bool) (mt : Nat) (hna : ∀ xs, v ≠ .arr xs) :
    purgeFile env id now ⟨nm, .jsonText v p, mt⟩
      = (some ⟨nm, .jsonText v p, mt⟩, []) := by
  by_cases hr : env.readFails nm = true
  · simp [purgeFile, hr]
  · cases v with
    | arr xs => exact absurd rfl (hna xs)
    | null => simp [purgeFile, hr, Content.isEmptyStr, Content.parse]
    | bool b => simp [purgeFile, hr, Content.isEmptyStr, Content.parse]
    | num n => simp [purgeFile, hr, Content.isEmptyStr, Content.parse]
    | str s => simp [purgeFile, hr, Content.isEmptyStr, Content.parse]
    | obj fields => simp [purgeFile, hr, Content.isEmptyStr, Content.parse]

/-- Branch structure of the per-file purge handler on a snapshot parsing
as a JSON array. -/
theorem purgeFile_arr_eq (env : Env) (id : String) (now : Nat)
    (nm : String) (xs : List Json) (p : Bool) (mt : Nat) :
    purgeFile env id now ⟨nm, .jsonText (.arr xs) p, mt⟩ =
      (if env.readFails nm then (some ⟨nm, .jsonText (.arr xs) p, mt⟩, [])
       else if (xs.filter (fun y => !(matchesId id y))).length = xs.length then
         (some ⟨nm, .jsonText (.arr xs) p, mt⟩, [])
       else if (xs.filter (fun y => !(matchesId id y))).length = 0 then
         (if env.unlinkFails nm then (some ⟨nm, .jsonText (.arr xs) p, mt⟩, [])
          else (none, [.evUnlink (.backup nm)]))
       else
         (if env.writeFails (.backup nm) then (some ⟨nm, .jsonText (.arr xs) p, mt⟩, [])
          else (some ⟨nm, .jsonText (.arr (xs.filter (fun y => !(matchesId id y)))) true, now⟩,
                atomicWriteTrace (.backup nm)
                  (.jsonText (.arr (xs.filter (fun y => !(matchesId id y)))) true)))) := rfl

/-- A snapshot that is unparseable, parses to a non-array, or parses to an
array containing no matching record, is left exactly in place by the
per-file purge handler, with no filesystem event, under every failure
oracle. -/
theorem purgeFile_untouched (env : Env) (id : String) (now : Nat) (e : DirEnt)
    (hcase : e.content.parse = none ∨
             (∃ v, e.content.parse = some v ∧ ∀ xs, v ≠ .arr xs) ∨
             (∃ xs, e.content.parse = some (.arr xs) ∧ ∀ x ∈ xs, matchesId id x = false)) :
    purgeFile env id now e = (some e, []) := by
  rcases e with ⟨nm, c, mt⟩
  simp only [Content.parse] at hcase
  cases c with
  | text raw => exact purgeFile_text_eq env id now nm raw mt
  | jsonText v p =>
    rcases hcase with h | ⟨w, hw, hna⟩ | ⟨xs, hxs, hnm⟩
    · exact absurd h (by simp)
    · have hv : v = w := by simpa using hw
      subst hv
      exact purgeFile_nonarr_eq env id now nm v p mt hna
    · have hv : v = .arr xs := by simpa using hxs
      subst hv
      have hfe : xs.filter (fun y => !(matchesId id y)) = xs :=
        List.filter_eq_self.mpr (fun a ha => by simp [hnm a ha])
      by_cases hr : env.readFails nm = true
      · rw [purgeFile_arr_eq, if_pos hr]
      · rw [purgeFile_arr_eq, if_neg hr, if_pos (by rw [hfe])]

/-- The per-file purge handler never renames a surviving file. -/
theorem purgeFile_keep_name (env : Env) (id : String) (now : Nat) (e0 e : DirEnt)
    (hf : (purgeFile env id now e0).1 = some e) : e.name = e0.name := by
  simp only [purgeFile] at hf
  repeat' split at hf
  all_goals dsimp only at hf
  all_goals first
    | exact Option.noConfusion hf
    | (have h2 := Option.some.inj hf; subst h2; rfl)

/-- Every record of a surviving snapshot that parses as a JSON array fails
the id test, in the failure-free run. -/
theorem purgeFile_clean (id : String) (now : Nat) (e0 e : DirEnt)
    (hf : (purgeFile noFail id now e0).1 = some e) :
    ∀ xs, e.content.parse = some (.arr xs) → ∀ x ∈ xs, matchesId id x = false := by
  intro xs hp x hx
  rcases e0 with ⟨nm, c, mt⟩
  cases c with
  | text raw =>
    rw [purgeFile_text_eq] at hf
    have h2 := Option.some.inj hf
    subst h2
    simp [Content.parse] at hp
  | jsonText v p =>
    cases v with
    | arr xs0 =>
      rw [purgeFile_arr_eq, if_neg (by simp [noFail])] at hf
      by_cases hlen : (xs0.filter (fun y => !(matchesId id y))).length = xs0.length
      · rw [if_pos hlen] at hf
        have h2 := Option.some.inj hf
        subst h2
        have hfe : xs0.filter (fun y => !(matchesId id y)) = xs0 :=
          (List.filter_sublist xs0).eq_of_length hlen
        have hall := List.filter_eq_self.mp hfe
        have hxx : xs = xs0 := by simpa [Content.parse] using hp.symm
        subst hxx
        simpa using hall x hx
      · rw [if_neg hlen] at hf
        by_cases h0 : (xs0.filter (fun y => !(matchesId id y))).length = 0
        · rw [if_pos h0, if_neg (by simp [noFail])] at hf
          exact Option.noConfusion hf
        · rw [if_neg h0, if_neg (by simp [noFail])] at hf
          have h2 := Option.some.inj hf
          subst h2
          have hxx : xs = xs0.filter (fun y => !(matchesId id y)) := by
            simpa [Content.parse] using hp.symm
          subst hxx
          simpa using List.of_mem_filter hx
    | null =>
      rw [purgeFile_nonarr_eq _ _ _ _ _ _ _ (fun xs h => Json.noConfusion h)] at hf
      have h2 := Option.some.inj hf
      subst h2
      simp [Content.parse] at hp
    | bool b =>
      rw [purgeFile_nonarr_eq _ _ _ _ _ _ _ (fun xs h => Json.noConfusion h)] at hf
      have h2 := Option.some.inj hf
      subst h2
      simp [Content.parse] at hp
    | num n =>
      rw [purgeFile_nonarr_eq _ _ _ _ _ _ _ (fun xs h => Json.noConfusion h)] at hf
      have h2 := Option.some.inj hf
      subst h2
      simp [Content.parse] at hp
    | str s =>
      rw [purgeFile_nonarr_eq _ _ _ _ _ _ _ (fun xs h => Json.noConfusion h)] at hf
      have h2 := Option.some.inj hf
      subst h2
      simp [Content.parse] at hp
    | obj fields =>
      rw [purgeFile_nonarr_eq _ _ _ _ _ _ _ (fun xs h => Json.noConfusion h)] at hf
      have h2 := Option.some.inj hf
      subst h2
      simp [Content.parse] at hp

/-- A snapshot whose array contains records and whose filtered array is
empty is unlinked by the failure-free per-file purge handler. -/
theorem purgeFile_deletes (id : String) (now : Nat) (e0 : DirEnt) (xs : List Json)
    (hp : e0.content.parse = some (.arr xs)) (hne : xs ≠ [])
    (hemp : xs.filter (fun y => !(matchesId id y)) = []) :
    (purgeFile noFail id now e0).1 = none := by
  rcases e0 with ⟨nm, c, mt⟩
  cases c with
  | text raw => simp [Content.parse] at hp
  | jsonText v p =>
    have hv : v = .arr xs := by simpa [Content.parse] using hp
    subst hv
    have h0 : (xs.filter (fun y => !(matchesId id y))).length = 0 := by rw [hemp]; rfl
    have hlen : ¬((xs.filter (fun y => !(matchesId id y))).length = xs.length) := by
      rw [hemp]
      intro h
      exact hne (List.length_eq_zero.mp h.symm)
    rw [purgeFile_arr_eq, if_neg (by simp [noFail]), if_neg hlen, if_pos h0,
        if_neg (by simp [noFail])]

/-- Claim C9: a backup snapshot with non-empty content that is unparseable
as JSON, parses to a non-array, or parses to an array containing no record
with the given id, is left exactly unchanged by removeBackupsContainingNote:
its per-file handler returns the entry as-is with no write, rename or
unlink event, and the entry survives in the backups directory. -/
theorem claim9_purge_skips (env : Env) (id : String) (fs : Fs) (e : DirEnt)
    (hmem : e ∈ fs.backups)
    (hne : e.content.isEmptyStr = false)
    (hcase : e.content.parse = none ∨
             (∃ v, e.content.parse = some v ∧ ∀ xs, v ≠ .arr xs) ∨
             (∃ xs, e.content.parse = some (.arr xs) ∧ ∀ x ∈ xs, matchesId id x = false)) :
    purgeFile env id fs.now e = (some e, []) ∧
    e ∈ (removeBackupsContainingNote env id fs).1.backups := by
  have h := purgeFile_untouched env id fs.now e hcase
  refine ⟨h, ?_⟩
  show e ∈ fs.backups.filterMap (fun x => (purgeFile env id fs.now x).1)
  exact List.mem_filterMap.mpr ⟨e, hmem, by rw [h]⟩

/-- Witness for claim C9 at a concrete unparseable snapshot. -/
theorem claim9_witness :
    ((⟨"a.json", .text "junk", 1⟩ : DirEnt)
       ∈ Fs.backups ⟨none, [⟨"a.json", .text "junk", 1⟩], 5⟩) ∧
    (Content.isEmptyStr (.text "junk") = false) ∧
    (Content.parse (.text "junk") = none ∨
     (∃ v, Content.parse (.text "junk") = some v ∧ ∀ xs, v ≠ .arr xs) ∨
     (∃ xs, Content.parse (.text "junk") = some (.arr xs) ∧
        ∀ x ∈ xs, matchesId "42" x = false)) ∧
    (purgeFile noFail "42" (Fs.now ⟨none, [⟨"a.json", .text "junk", 1⟩], 5⟩)
        ⟨"a.json", .text "junk", 1⟩
       = (some ⟨"a.json", .text "junk", 1⟩, []) ∧
     (⟨"a.json", .text "junk", 1⟩ : DirEnt)
       ∈ (removeBackupsContainingNote noFail "42"
            ⟨none, [⟨"a.json", .text "junk", 1⟩], 5⟩).1.backups) :=
  ⟨by simp, rfl, Or.inl rfl,
   claim9_purge_skips noFail "42" ⟨none, [⟨"a.json", .text "junk", 1⟩], 5⟩
     ⟨"a.json", .text "junk", 1⟩ (by simp) rfl (Or.inl rfl)⟩

/-- Claim C4: after removeBackupsContainingNote(id) in the failure-free
environment, no surviving snapshot that parses as a JSON array contains a
record with the given id; every snapshot whose filtered array becomes
empty is deleted; unparseable and non-array snapshots are skipped
unchanged; and a failure injected on one snapshot file leaves every other
file's processing exactly as in the failure-free run (so per-file failures
never abort the whole operation, which returns normally by construction). -/
theorem claim4_purge_redacts (id : String) (fs : Fs)
    (hnodup : (fs.backups.map DirEnt.name).Nodup) :
    (∀ e ∈ (removeBackupsContainingNote noFail id fs).1.backups,
       ∀ xs, e.content.parse = some (.arr xs) → ∀ x ∈ xs, matchesId id x = false) ∧
    (∀ e ∈ fs.backups, ∀ xs, e.content.parse = some (.arr xs) → xs ≠ [] →
       xs.filter (fun y => !(matchesId id y)) = [] →
       ∀ e' ∈ (removeBackupsContainingNote noFail id fs).1.backups, e'.name ≠ e.name) ∧
    (∀ e ∈ fs.backups,
       (e.content.parse = none ∨ ∃ v, e.content.parse = some v ∧ ∀ xs, v ≠ .arr xs) →
       e ∈ (removeBackupsContainingNote noFail id fs).1.backups) ∧
    (∀ env : Env, ∀ e ∈ fs.backups,
       env.readFails e.name = false → env.writeFails (.backup e.name) = false →
       env.unlinkFails e.name = false →
       purgeFile env id fs.now e = purgeFile noFail id fs.now e) := by
  refine ⟨?_, ?_, ?_, ?_⟩
  · intro e he xs hxs x hx
    have he' : e ∈ fs.backups.filterMap (fun x => (purgeFile noFail id fs.now x).1) := he
    obtain ⟨e0, _, hf⟩ := List.mem_filterMap.mp he'
    exact purgeFile_clean id fs.now e0 e hf xs hxs x hx
  · intro e he xs hxs hne hemp e' he' heq
    have he'' : e' ∈ fs.backups.filterMap (fun x => (purgeFile noFail id fs.now x).1) := he'
    obtain ⟨e0, he0, hf⟩ := List.mem_filterMap.mp he''
    have hname := purgeFile_keep_name noFail id fs.now e0 e' hf
    have he0e : e0 = e :=
      List.inj_on_of_nodup_map hnodup he0 he (by rw [← hname, heq])
    subst he0e
    rw [purgeFile_deletes id fs.now e0 xs hxs hne hemp] at hf
    exact Option.noConfusion hf
  · intro e he hcase
    have h := purgeFile_untouched noFail id fs.now e
      (by rcases hcase with h1 | h2
          · exact Or.inl h1
          · exact Or.inr (Or.inl h2))
    show e ∈ fs.backups.filterMap (fun x => (purgeFile noFail id fs.now x).1)
    exact List.mem_filterMap.mpr ⟨e, he, by rw [h]⟩
  · intro env e _ h1 h2 h3
    rcases e with ⟨nm, c, mt⟩
    cases c with
    | text raw => rw [purgeFile_text_eq, purgeFile_text_eq]
    | jsonText v p =>
      cases v with
      | arr xs =>
        rw [purgeFile_arr_eq, purgeFile_arr_eq]
        simp only at h1 h2 h3
        simp [h1, h2, h3, noFail]
      | null =>
        rw [purgeFile_nonarr_eq _ _ _ _ _ _ _ (fun xs h => Json.noConfusion h),
            purgeFile_nonarr_eq _ _ _ _ _ _ _ (fun xs h => Json.noConfusion h)]
      | bool b =>
        rw [purgeFile_nonarr_eq _ _ _ _ _ _ _ (fun xs h => Json.noConfusion h),
            purgeFile_nonarr_eq _ _ _ _ _ _ _ (fun xs h => Json.noConfusion h)]
      | num n =>
        rw [purgeFile_nonarr_eq _ _ _ _ _ _ _ (fun xs h => Json.noConfusion h),
            purgeFile_nonarr_eq _ _ _ _ _ _ _ (fun xs h => Json.noConfusion h)]
      | str s =>
        rw [purgeFile_nonarr_eq _ _ _ _ _ _ _ (fun xs h => Json.noConfusion h),
            purgeFile_nonarr_eq _ _ _ _ _ _ _ (fun xs h => Json.noConfusion h)]
      | obj fields =>
        rw [purgeFile_nonarr_eq _ _ _ _ _ _ _ (fun xs h => Json.noConfusion h),
            purgeFile_nonarr_eq _ _ _ _ _ _ _ (fun xs h => Json.noConfusion h)]

/-- Witness for claim C4 on a directory with a rewritable snapshot, a
snapshot that becomes empty, and an unparseable snapshot. -/
theorem claim4_witness :
    ((Fs.backups ⟨none,
        [⟨"b1.json", .jsonText (.arr [.obj [("id", .str "42")], .obj [("id", .str "7")]]) false, 1⟩,
         ⟨"b2.json", .jsonText (.arr [.obj [("id", .str "42")]]) false, 2⟩,
         ⟨"b3.json", .text "junk", 3⟩], 9⟩).map DirEnt.name).Nodup ∧
    ((∀ e ∈ (removeBackupsContainingNote noFail "42" ⟨none,
        [⟨"b1.json", .jsonText (.arr [.obj [("id", .str "42")], .obj [("id", .str "7")]]) false, 1⟩,
         ⟨"b2.json", .jsonText (.arr [.obj [("id", .str "42")]]) false, 2⟩,
         ⟨"b3.json", .text "junk", 3⟩], 9⟩).1.backups,
       ∀ xs, e.content.parse = some (.arr xs) → ∀ x ∈ xs, matchesId "42" x = false) ∧
     (∀ e ∈ Fs.backups ⟨none,
        [⟨"b1.json", .jsonText (.arr [.obj [("id", .str "42")], .obj [("id", .str "7")]]) false, 1⟩,
         ⟨"b2.json", .jsonText (.arr [.obj [("id", .str "42")]]) false, 2⟩,
         ⟨"b3.json", .text "junk", 3⟩], 9⟩,
       ∀ xs, e.content.parse = some (.arr xs) → xs ≠ [] →
       xs.filter (fun y => !(matchesId "42" y)) = [] →
       ∀ e' ∈ (removeBackupsContainingNote noFail "42" ⟨none,
        [⟨"b1.json", .jsonText (.arr [.obj [("id", .str "42")], .obj [("id", .str "7")]]) false, 1⟩,
         ⟨"b2.json", .jsonText (.arr [.obj [("id", .str "42")]]) false, 2⟩,
         ⟨"b3.json", .text "junk", 3⟩], 9⟩).1.backups, e'.name ≠ e.name) ∧
     (∀ e ∈ Fs.backups ⟨none,
        [⟨"b1.json", .jsonText (.arr [.obj [("id", .str "42")], .obj [("id", .str "7")]]) false, 1⟩,
         ⟨"b2.json", .jsonText (.arr [.obj [("id", .str "42")]]) false, 2⟩,
         ⟨"b3.json", .text "junk", 3⟩], 9⟩,
       (e.content.parse = none ∨ ∃ v, e.content.parse = some v ∧ ∀ xs, v ≠ .arr xs) →
       e ∈ (removeBackupsContainingNote noFail "42" ⟨none,
        [⟨"b1.json", .jsonText (.arr [.obj [("id", .str "42")], .obj [("id", .str "7")]]) false, 1⟩,
         ⟨"b2.json", .jsonText (.arr [.obj [("id", .str "42")]]) false, 2⟩,
         ⟨"b3.json", .text "junk", 3⟩], 9⟩).1.backups) ∧
     (∀ env : Env, ∀ e ∈ Fs.backups ⟨none,
        [⟨"b1.json", .jsonText (.arr [.obj [("id", .str "42")], .obj [("id", .str "7")]]) false, 1⟩,
         ⟨"b2.json", .jsonText (.arr [.obj [("id", .str "42")]]) false, 2⟩,
         ⟨"b3.json", .text "junk", 3⟩], 9⟩,
       env.readFails e.name = false → env.writeFails (.backup e.name) = false →
       env.unlinkFails e.name = false →
       purgeFile env "42" (Fs.now ⟨none,
        [⟨"b1.json", .jsonText (.arr [.obj [("id", .str "42")], .obj [("id", .str "7")]]) false, 1⟩,
         ⟨"b2.json", .jsonText (.arr [.obj [("id", .str "42")]]) false, 2⟩,
         ⟨"b3.json", .text "junk", 3⟩], 9⟩) e
         = purgeFile noFail "42" (Fs.now ⟨none,
        [⟨"b1.json", .jsonText (.arr [.obj [("id", .str "42")], .obj [("id", .str "7")]]) false, 1⟩,
         ⟨"b2.json", .jsonText (.arr [.obj [("id", .str "42")]]) false, 2⟩,
         ⟨"b3.json", .text "junk", 3⟩], 9⟩) e)) :=
  ⟨by decide,
   claim4_purge_redacts "42" ⟨none,
        [⟨"b1.json", .jsonText (.arr [.obj [("id", .str "42")], .obj [("id", .str "7")]]) false, 1⟩,
         ⟨"b2.json", .jsonText (.arr [.obj [("id", .str "42")]]) false, 2⟩,
         ⟨"b3.json", .text "junk", 3⟩], 9⟩ (by decide)⟩

end SafeDb
